import Mathlib

/-!
Verification of the 3D Scene State Synchronization Engine of this repository.

The definitions below are a shallow embedding of the viewer-state logic of the
Viewer3D component (selectElements, hideElements, showElements, isolateElements,
the visibility/isolation synchronization effects, the readiness polling loop of
initViewer) and of the page-level selection handler handleElementSelect.

Modelling conventions:
- An engine entity (a xeokit scene object) is a record with its registry key
  (entity.id), its visible and selected flags and its colorize channel.
  The capability-probing mutation chains of the source (colorize as a function,
  colorize as a property, material.colorize, material.color, the scene-level
  batch setters) all achieve one semantic effect on one color channel; the
  embedding models that single channel directly, as the spec's design notes
  prescribe (one readColor/writeColor pair).
- scene.objects is the keyed registry; it is modelled as a list of entities in
  registry iteration order, looked up by key with find?. Entity references held
  across mutations (previouslySelectedEntitiesRef) are modelled by their keys.
- originalColorsRef (the appearance ledger, a JS Map) is modelled as an
  association list in insertion order; Map.set appends, Map.delete filters.
- Color components arrive as JS numbers; they are modelled as rationals. The
  literal 0.23 becomes mkRat 23 100 and so on. Subtraction and absolute value
  are spelled with the executable helpers ratSub and ratAbs below, which are
  proved equal to the mathematical operations.
-/

/-- Absolute value on the rationals, executable form of Math.abs. -/
def ratAbs (q : ℚ) : ℚ := if q < 0 then -q else q

/-- Subtraction on the rationals through numerators and denominators,
executable form of the subtraction in the source's tolerance checks. -/
def ratSub (a b : ℚ) : ℚ := mkRat (a.num * b.den - b.num * a.den) (a.den * b.den)

/-- A color is an RGB triple of components. -/
abbrev Color := ℚ × ℚ × ℚ

/-- The reserved selection-highlight color of the source: [0.23, 0.51, 0.96]. -/
def blueColor : Color := (mkRat 23 100, mkRat 51 100, mkRat 96 100)

/-- The tolerance 0.01 used by the source when comparing colors to the
highlight color. -/
def colorTol : ℚ := mkRat 1 100

/-- The highlight-color test of the source: each component within 0.01 of the
corresponding component of blueColor (Math.abs(c[i] - blue[i]) < 0.01). -/
def isBlue (c : Color) : Bool :=
  ratAbs (ratSub c.1 blueColor.1) < colorTol &&
  ratAbs (ratSub c.2.1 blueColor.2.1) < colorTol &&
  ratAbs (ratSub c.2.2 blueColor.2.2) < colorTol

/-- A live engine object: registry key, visibility flag, native selection flag
and the colorize override channel (none means no override, the base material
shows through; colorize(null) in the source resets to this state). -/
structure Entity where
  id : String
  visible : Bool
  selected : Bool
  colorize : Option Color
  deriving Repr, DecidableEq

/-- The keyed live-object registry scene.objects, in registry iteration
order. -/
abbrev Scene := List Entity

/-- The appearance ledger originalColorsRef: entity key to stored original
color, where a stored none is the sentinel meaning no override was active. -/
abbrev Ledger := List (String × Option Color)

/-- The mutable state of one mounted Viewer3D instance that the reconciliation
routines touch: the scene registry, the appearance ledger and the keys of the
previously selected entities (previouslySelectedEntitiesRef). -/
structure Viewer3DState where
  scene : Scene
  originalColors : Ledger
  previouslySelected : List String
  deriving Repr, DecidableEq

/-- Key suffix test, executable form of key.endsWith(t). -/
def keyEndsWith (s t : String) : Bool := t.data.isSuffixOf s.data

/-- Key prefix test, executable form of key.startsWith(t). -/
def keyStartsWith (s t : String) : Bool := t.data.isPrefixOf s.data

/-- The last #-separated segment of a key with fallback to the whole key,
executable form of objId.split('#').pop() || objId in the visibility sync. -/
def afterLastHash (s : String) : String :=
  let seg : List Char := (s.data.reverse.takeWhile (fun ch => ch ≠ '#')).reverse
  if seg.isEmpty then s else String.mk seg

/-- Registry lookup scene.objects[key]. -/
def sceneFind (sc : Scene) (key : String) : Option Entity :=
  sc.find? (fun e => e.id == key)

/-- Ledger lookup originalColors.get(key) (some v when a record exists,
where v itself may be the stored sentinel none). -/
def ledgerLookup (l : Ledger) (key : String) : Option (Option Color) :=
  (l.find? (fun p => p.1 == key)).map (fun p => p.2)

/-- Ledger record removal originalColors.delete(key). -/
def ledgerErase (key : String) (l : Ledger) : Ledger :=
  l.filter (fun p => p.1 != key)

/-- Set the colorize channel of the entity registered under a key; models
entity.colorize(v) (and its property / material / scene-batch fallbacks) for
the entity object held under that key. -/
def updCol (key : String) (v : Option Color) (sc : Scene) : Scene :=
  sc.map (fun e => if e.id == key then { e with colorize := v } else e)

/-- scene.setObjectsSelected(entities, b) for the entities held under the
given keys. -/
def setSelectedAll (keys : List String) (b : Bool) (sc : Scene) : Scene :=
  sc.map (fun e => if keys.contains e.id then { e with selected := b } else e)

/-- getEntityColor of the source: probe the colorize channel; if the probed
value is the highlight color within tolerance, report null (base color). -/
def getEntityColor (e : Entity) : Option Color :=
  match e.colorize with
  | none => none
  | some c => if isBlue c then none else some c

/-- One iteration of the restore loop of selectElements for one previously
selected entity: look its record up; when a record exists, restore the stored
value through restoreEntityColor (a stored none resets to the base color) and
delete the record; when no record exists, reset to the base color. -/
def restoreStep (sl : Scene × Ledger) (key : String) : Scene × Ledger :=
  match ledgerLookup sl.2 key with
  | some v => (updCol key v sl.1, ledgerErase key sl.2)
  | none => (updCol key none sl.1, sl.2)

/-- The value the capture block of selectElements stores: the probed original,
except that a probe equal to the highlight color within tolerance is stored as
the sentinel none. -/
def captureVal (e : Entity) : Option Color :=
  match getEntityColor e with
  | none => none
  | some c => if isBlue c then none else some c

/-- One iteration of the capture-and-highlight loop of selectElements for one
newly selected entity: when no record exists yet, probe the current color and
store it (first write wins); then set the colorize channel to the highlight
color. -/
def captureStep (sl : Scene × Ledger) (key : String) : Scene × Ledger :=
  let l' : Ledger :=
    if (ledgerLookup sl.2 key).isSome then sl.2
    else
      match sceneFind sl.1 key with
      | some e => sl.2 ++ [(key, captureVal e)]
      | none => sl.2 ++ [(key, none)]
  (updCol key (some blueColor) sl.1, l')

/-- The entity-lookup fallback chain shared by selectElements, hideElements
and showElements: exact composite key, then exact bare key, then the first
registry key that ends in the #-suffix or equals the element id. -/
def resolveElem (sc : Scene) (modelId elementId : String) : Option Entity :=
  match sceneFind sc (modelId ++ "#" ++ elementId) with
  | some entity => some entity
  | none =>
    match sceneFind sc elementId with
    | some entity => some entity
    | none =>
      sc.find? (fun e => keyEndsWith e.id ("#" ++ elementId) || e.id == elementId)

/-- The key of the entity the fallback chain resolves an element id to. -/
def resolveKey (sc : Scene) (modelId elementId : String) : Option String :=
  (resolveElem sc modelId elementId).map Entity.id

/-- The keys gathered for a batch of element ids; ids that resolve to nothing
are logged and skipped, the batch continues. -/
def resolveKeys (sc : Scene) (modelId : String) (elementIds : List String) : List String :=
  elementIds.filterMap (fun elementId => resolveKey sc modelId elementId)

/-- The list-as-set contract of the resolver as the specification words it. -/
def resolveList (sc : Scene) (modelId elementId : String) : List Entity :=
  (resolveElem sc modelId elementId).toList

/-- The first half of selectElements: deselect all previously selected
entities, then for each of them restore the recorded original color and drop
its ledger record. A no-op when nothing was previously selected. -/
def restorePhase (st : Viewer3DState) : Viewer3DState :=
  if st.previouslySelected.isEmpty then st
  else
    let s := setSelectedAll st.previouslySelected false st.scene
    let sl := st.previouslySelected.foldl restoreStep (s, st.originalColors)
    { scene := sl.1, originalColors := sl.2,
      previouslySelected := st.previouslySelected }

/-- selectElements of the source: restore the previous selection, resolve the
new element ids, mark the found entities engine-selected, capture originals
into the ledger and paint the highlight color (per entity and once more as a
scene-level batch), and remember the new selection for the next restore. -/
def selectElements (modelId : String) (elementIds : List String)
    (st : Viewer3DState) : Viewer3DState :=
  let st1 := restorePhase st
  let ks := resolveKeys st1.scene modelId elementIds
  if ks.isEmpty then { st1 with previouslySelected := [] }
  else
    let s := setSelectedAll ks true st1.scene
    let sl := ks.foldl captureStep (s, st1.originalColors)
    let s2 := ks.foldl (fun sc k => updCol k (some blueColor) sc) sl.1
    { scene := s2, originalColors := sl.2, previouslySelected := ks }

/-- hideElements of the source: resolve each element id through the shared
fallback chain and set every found entity invisible. The appearance ledger and
the previous-selection list are untouched. -/
def hideElements (modelId : String) (elementIds : List String)
    (st : Viewer3DState) : Viewer3DState :=
  let ks := resolveKeys st.scene modelId elementIds
  if ks.isEmpty then st
  else
    { st with scene := st.scene.map (fun e =>
        if ks.contains e.id then { e with visible := false } else e) }

/-- showElements of the source: resolve each element id through the shared
fallback chain (the extra model.objects probe of the source is subsumed here
because the keys of model.objects are also keys of scene.objects), set every
found entity visible, and re-paint the highlight color on the shown entities
that carry the native selection flag. The ledger is untouched. -/
def showElements (modelId : String) (elementIds : List String)
    (st : Viewer3DState) : Viewer3DState :=
  let ks := resolveKeys st.scene modelId elementIds
  if ks.isEmpty then st
  else
    { st with scene := st.scene.map (fun e =>
        if ks.contains e.id then
          { e with visible := true,
                   colorize := if e.selected then some blueColor else e.colorize }
        else e) }

/-- isolateElements of the source. A null id list shows every live object and
re-paints the highlight on all selected entities. A non-null id list is
resolved through the exact composite key only (no bare-key and no suffix
fallback), every live object is hidden, the resolved entities are shown, and
the shown entities that are selected get the highlight color re-painted. -/
def isolateElements (modelId : String) (elementIds : Option (List String))
    (st : Viewer3DState) : Viewer3DState :=
  match elementIds with
  | none =>
    { st with scene := st.scene.map (fun e =>
        { e with visible := true,
                 colorize := if e.selected then some blueColor else e.colorize }) }
  | some ids =>
    let isoKeys := ids.filterMap (fun elementId =>
      (sceneFind st.scene (modelId ++ "#" ++ elementId)).map Entity.id)
    { st with scene := st.scene.map (fun e =>
        if isoKeys.contains e.id then
          { e with visible := true,
                   colorize := if e.selected then some blueColor else e.colorize }
        else { e with visible := false }) }

/-- The visibility-synchronization effect of Viewer3D: when an isolation set
is active it returns unchanged (hidden ids are remembered but not applied);
otherwise every object whose key starts with the model prefix is partitioned
by whether its element id (the last #-segment of its key) is in
hiddenElementIds, hidden objects are made invisible, the rest visible, and the
visible entities carrying the native selection flag get the highlight color
re-painted. -/
def visibilitySync (modelId : String) (hiddenElementIds : List String)
    (isolatedElementIds : Option (List String)) (sc : Scene) : Scene :=
  match isolatedElementIds with
  | some _ => sc
  | none =>
    sc.map (fun e =>
      if keyStartsWith e.id (modelId ++ "#") then
        if hiddenElementIds.contains (afterLastHash e.id) then
          { e with visible := false }
        else
          { e with visible := true,
                   colorize := if e.selected then some blueColor else e.colorize }
      else e)

/-- The reconciliation pass Viewer3D runs when only hiddenElementIds changed:
of the synchronization effects, only the visibility effect has the changed
value in its dependency array, so only it re-runs. -/
def hiddenChangePass (modelId : String) (hiddenElementIds : List String)
    (isolatedElementIds : Option (List String)) (st : Viewer3DState) : Viewer3DState :=
  { st with scene := visibilitySync modelId hiddenElementIds isolatedElementIds st.scene }

/-- The reconciliation pass Viewer3D runs when isolatedElementIds changed:
both the visibility effect and the isolation effect list it in their
dependency arrays, and React runs effects in declaration order, so the
visibility effect (declared first) runs and then the isolation effect calls
isolateElements with the new value. -/
def isolationChangePass (modelId : String) (hiddenElementIds : List String)
    (isolatedElementIds : Option (List String)) (st : Viewer3DState) : Viewer3DState :=
  isolateElements modelId isolatedElementIds
    (hiddenChangePass modelId hiddenElementIds isolatedElementIds st)

/-- The display-mode choices of the viewer page. -/
inductive DisplayMode
  | wireframe
  | solid
  | shaded
  deriving Repr, DecidableEq

/-- The viewer-page state owned by ModelViewerPage: the four interactive state
dimensions plus the primary selected id used for the properties panel. -/
structure PageState where
  selectedElementId : Option String
  selectedElementIds : List String
  hiddenElementIds : List String
  isolatedElementIds : Option (List String)
  xrayMode : Bool
  displayMode : DisplayMode
  deriving Repr, DecidableEq

/-- An operation the page issues into the engine through the viewer ref. -/
inductive EngineCall
  | selectCall (elementIds : List String)
  deriving Repr, DecidableEq

/-- handleElementSelect of ModelViewerPage. The metadata argument is the
loaded metadata's elements map, modelled by its key list (none when metadata
was not loaded). An empty element id clears the selection; a known-missing id
is rejected when metadata is present; otherwise the selection transitions by
the additive flag (ctrl): toggle-off when present, append when absent, replace
when not additive. The returned list is the trace of engine calls issued. -/
def handleElementSelect (metadata : Option (List String)) (elementId : String)
    (ctrl : Bool) (st : PageState) : PageState × List EngineCall :=
  if elementId = "" then
    ({ st with selectedElementId := none, selectedElementIds := [] },
     [EngineCall.selectCall []])
  else if (match metadata with
           | some elements => !(elements.contains elementId)
           | none => false) then
    (st, [])
  else if ctrl then
    if st.selectedElementIds.contains elementId then
      let newSelection := st.selectedElementIds.filter (fun id => id ≠ elementId)
      ({ st with selectedElementId := newSelection.head?,
                 selectedElementIds := newSelection },
       [EngineCall.selectCall newSelection])
    else
      let newSelection := st.selectedElementIds ++ [elementId]
      ({ st with selectedElementId := some elementId,
                 selectedElementIds := newSelection },
       [EngineCall.selectCall newSelection])
  else
    ({ st with selectedElementId := some elementId,
               selectedElementIds := [elementId] },
     [EngineCall.selectCall [elementId]])

/-- The attempt bound of the readiness polling loop of initViewer. -/
def maxAttempts : Nat := 50

/-- The fixed polling interval in milliseconds. -/
def pollIntervalMs : Nat := 100

/-- The timeout error message of waitForViewerReady. -/
def timeoutErrorMsg : String := "Viewer не инициализировался в течение 5 секунд"

/-- The checkReady loop of waitForViewerReady. The readiness oracle tells
whether the scene and its canvas exist at the n-th probe. Each call increments
the attempt counter, probes, resolves on success, rejects with the timeout
message once maxAttempts probes failed, and otherwise schedules the next probe
after pollIntervalMs. The first component is the trace of probe times in
milliseconds, the second the settled promise. The fuel argument is the number
of probes still allowed and makes the recursion structural; waitForViewerReady
starts it at maxAttempts, so the fuel never runs out before the attempt bound
fires. -/
def checkReadyFuel (ready : Nat → Bool) : Nat → Nat → List Nat × Except String Nat
  | _, 0 => ([], Except.error timeoutErrorMsg)
  | attempts, fuel + 1 =>
    let a := attempts + 1
    let t := pollIntervalMs * attempts
    if ready a then ([t], Except.ok a)
    else if maxAttempts ≤ a then ([t], Except.error timeoutErrorMsg)
    else
      let r := checkReadyFuel ready a fuel
      (t :: r.1, r.2)

/-- waitForViewerReady of initViewer: run the polling loop from attempt 0. -/
def waitForViewerReady (ready : Nat → Bool) : List Nat × Except String Nat :=
  checkReadyFuel ready 0 maxAttempts

/-- The terminal phases of one viewer bring-up. -/
inductive ViewerPhase
  | ready
  | failed (msg : String)
  deriving Repr, DecidableEq

/-- The outcome of initViewer as far as readiness polling decides it: a
rejection of waitForViewerReady is caught by the enclosing try/catch, which
stores the error message and leaves the viewer in the failed terminal state. -/
def initViewer (ready : Nat → Bool) : ViewerPhase :=
  match (waitForViewerReady ready).2 with
  | Except.ok _ => ViewerPhase.ready
  | Except.error msg => ViewerPhase.failed msg

/-- Keys currently recorded in the ledger, as a set. -/
def keysOf (l : Ledger) : Finset String := (l.map Prod.fst).toFinset

/-- The JS-Map invariant that ledger keys are unique. -/
def keysNodup (l : Ledger) : Prop := (l.map Prod.fst).Nodup

/-- No ledger record stores the highlight color as an original. -/
def noBlueStored (l : Ledger) : Prop :=
  ∀ p ∈ l, ∀ c : Color, p.2 = some c → isBlue c = false

/-- The ids of the visible objects of a scene, used to state visibility
properties. -/
def visibleIds (sc : Scene) : List String :=
  (sc.filter (fun e => e.visible)).map Entity.id

/-- Concrete model scene for the isolation-precedence scenario of the
specification: four objects A, B, C, D registered under composite keys of
model m, all visible, none selected, no color override. -/
def c1Scene : Scene :=
  [⟨"m#A", true, false, none⟩, ⟨"m#B", true, false, none⟩,
   ⟨"m#C", true, false, none⟩, ⟨"m#D", true, false, none⟩]

/-- Scenario state after hiddenElementIds becomes [A] (only the visibility
effect re-runs). -/
def c1AfterHide : Viewer3DState :=
  hiddenChangePass "m" ["A"] none ⟨c1Scene, [], []⟩

/-- Scenario state after isolatedElementIds becomes [B, C] (visibility effect
re-runs and early-returns, then the isolation effect applies). -/
def c1AfterIsolate : Viewer3DState :=
  isolationChangePass "m" ["A"] (some ["B", "C"]) c1AfterHide

/-- Scenario state after isolatedElementIds goes back to null: the visibility
effect re-applies the hidden partition first, and then the isolation effect
calls isolateElements with null, which makes every live object visible. -/
def c1AfterClear : Viewer3DState :=
  isolationChangePass "m" ["A"] none c1AfterIsolate

/-! Bridging lemmas: the executable rational helpers agree with the
mathematical operations, so the tolerance test is the one the specification
describes. -/

theorem ratAbs_eq_abs (q : ℚ) : ratAbs q = |q| := by
  unfold ratAbs
  split
  · exact (abs_of_neg (by assumption)).symm
  · exact (abs_of_nonneg (le_of_not_lt (by assumption))).symm

theorem ratSub_eq_sub (a b : ℚ) : ratSub a b = a - b := by
  have ha : (a.den : ℚ) ≠ 0 := by exact_mod_cast a.den_nz
  have hb : (b.den : ℚ) ≠ 0 := by exact_mod_cast b.den_nz
  rw [ratSub, Rat.mkRat_eq_div]
  push_cast
  rw [div_eq_iff (mul_ne_zero ha hb)]
  have hA : (a.num : ℚ) = a * a.den := by
    rw [← div_eq_iff ha]
    exact Rat.num_div_den a
  have hB : (b.num : ℚ) = b * b.den := by
    rw [← div_eq_iff hb]
    exact Rat.num_div_den b
  rw [hA, hB]
  ring

theorem isBlue_iff (c : Color) :
    isBlue c = true ↔
      |c.1 - blueColor.1| < colorTol ∧ |c.2.1 - blueColor.2.1| < colorTol ∧
        |c.2.2 - blueColor.2.2| < colorTol := by
  simp [isBlue, Bool.and_eq_true, decide_eq_true_eq, ratAbs_eq_abs, ratSub_eq_sub,
    and_assoc]

/-! Generic lemmas: registry lookups through id-preserving scene updates, and
resolution depending only on the key list of the scene. -/

theorem map_id_of_pres (sc : Scene) (f : Entity → Entity)
    (hf : ∀ e, (f e).id = e.id) :
    (sc.map f).map Entity.id = sc.map Entity.id := by
  rw [List.map_map]
  exact List.map_congr_left (fun e _ => hf e)

theorem sceneFind_map (sc : Scene) (f : Entity → Entity) (key : String)
    (hf : ∀ e, (f e).id = e.id) :
    sceneFind (sc.map f) key = (sceneFind sc key).map f := by
  induction sc with
  | nil => rfl
  | cons e t ih =>
    unfold sceneFind at ih ⊢
    by_cases h : e.id = key
    · rw [List.map_cons, List.find?_cons_of_pos, List.find?_cons_of_pos]
      · rfl
      · simp [h]
      · simp [hf e, h]
    · rw [List.map_cons, List.find?_cons_of_neg, List.find?_cons_of_neg]
      · exact ih
      · simp [h]
      · simp [hf e, h]

theorem find?_id_factor (q : String → Bool) (sc sc' : Scene)
    (h : sc.map Entity.id = sc'.map Entity.id) :
    ((sc.find? (fun e => q e.id)).map Entity.id)
      = ((sc'.find? (fun e => q e.id)).map Entity.id) := by
  induction sc generalizing sc' with
  | nil =>
    cases sc' with
    | nil => rfl
    | cons e t => simp at h
  | cons e t ih =>
    cases sc' with
    | nil => simp at h
    | cons e' t' =>
      simp only [List.map_cons, List.cons.injEq] at h
      obtain ⟨hid, ht⟩ := h
      by_cases hq : q e.id = true
      · rw [List.find?_cons_of_pos (p := fun e => q e.id) t hq,
          List.find?_cons_of_pos (p := fun e => q e.id) t'
            (show q e'.id = true by rw [← hid]; exact hq)]
        simp [hid]
      · rw [List.find?_cons_of_neg (p := fun e => q e.id) t (by simpa using hq),
          List.find?_cons_of_neg (p := fun e => q e.id) t'
            (show ¬ q e'.id = true by rw [← hid]; simpa using hq)]
        exact ih t' ht

theorem sceneFind_id_factor (sc sc' : Scene) (key : String)
    (h : sc.map Entity.id = sc'.map Entity.id) :
    (sceneFind sc key).map Entity.id = (sceneFind sc' key).map Entity.id :=
  find?_id_factor (fun s => s == key) sc sc' h

theorem resolveKey_factor (sc sc' : Scene) (modelId elementId : String)
    (h : sc.map Entity.id = sc'.map Entity.id) :
    resolveKey sc modelId elementId = resolveKey sc' modelId elementId := by
  have h1 := sceneFind_id_factor sc sc' (modelId ++ "#" ++ elementId) h
  have h2 := sceneFind_id_factor sc sc' elementId h
  have h3 := find?_id_factor
    (fun s => keyEndsWith s ("#" ++ elementId) || s == elementId) sc sc' h
  unfold resolveKey resolveElem
  cases hA : sceneFind sc (modelId ++ "#" ++ elementId) with
  | some e =>
    cases hA' : sceneFind sc' (modelId ++ "#" ++ elementId) with
    | some e' =>
      rw [hA, hA'] at h1
      simpa using h1
    | none =>
      rw [hA, hA'] at h1
      simp at h1
  | none =>
    cases hA' : sceneFind sc' (modelId ++ "#" ++ elementId) with
    | some e' =>
      rw [hA, hA'] at h1
      simp at h1
    | none =>
      cases hB : sceneFind sc elementId with
      | some e =>
        cases hB' : sceneFind sc' elementId with
        | some e' =>
          rw [hB, hB'] at h2
          simpa using h2
        | none =>
          rw [hB, hB'] at h2
          simp at h2
      | none =>
        cases hB' : sceneFind sc' elementId with
        | some e' =>
          rw [hB, hB'] at h2
          simp at h2
        | none => exact h3

theorem resolveKeys_factor (sc sc' : Scene) (modelId : String)
    (elementIds : List String) (h : sc.map Entity.id = sc'.map Entity.id) :
    resolveKeys sc modelId elementIds = resolveKeys sc' modelId elementIds := by
  unfold resolveKeys
  induction elementIds with
  | nil => rfl
  | cons i t ih =>
    rw [List.filterMap_cons, List.filterMap_cons,
      resolveKey_factor sc sc' modelId i h, ih]

/-! Every mutation of the reconciliation routines preserves the key list of
the registry: engine objects are discovered and mutated, never created or
destroyed. -/

theorem ids_updCol (key : String) (v : Option Color) (sc : Scene) :
    (updCol key v sc).map Entity.id = sc.map Entity.id := by
  unfold updCol
  apply map_id_of_pres
  intro e
  split <;> rfl

theorem ids_setSelectedAll (keys : List String) (b : Bool) (sc : Scene) :
    (setSelectedAll keys b sc).map Entity.id = sc.map Entity.id := by
  unfold setSelectedAll
  apply map_id_of_pres
  intro e
  split <;> rfl

theorem ids_restoreStep (p : Scene × Ledger) (key : String) :
    ((restoreStep p key).1).map Entity.id = p.1.map Entity.id := by
  cases h : ledgerLookup p.2 key <;> simp only [restoreStep, h] <;>
    exact ids_updCol _ _ _

theorem ids_captureStep (p : Scene × Ledger) (key : String) :
    ((captureStep p key).1).map Entity.id = p.1.map Entity.id :=
  ids_updCol _ _ _

theorem ids_restoreFold (ks : List String) : ∀ p : Scene × Ledger,
    ((ks.foldl restoreStep p).1).map Entity.id = p.1.map Entity.id := by
  induction ks with
  | nil => intro p; rfl
  | cons k t ih =>
    intro p
    rw [List.foldl_cons]
    exact (ih _).trans (ids_restoreStep p k)

theorem ids_captureFold (ks : List String) : ∀ p : Scene × Ledger,
    ((ks.foldl captureStep p).1).map Entity.id = p.1.map Entity.id := by
  induction ks with
  | nil => intro p; rfl
  | cons k t ih =>
    intro p
    rw [List.foldl_cons]
    exact (ih _).trans (ids_captureStep p k)

theorem ids_batchFold (ks : List String) : ∀ sc : Scene,
    (ks.foldl (fun sc k => updCol k (some blueColor) sc) sc).map Entity.id
      = sc.map Entity.id := by
  induction ks with
  | nil => intro sc; rfl
  | cons k t ih =>
    intro sc
    rw [List.foldl_cons]
    exact (ih _).trans (ids_updCol _ _ _)

theorem ids_restorePhase (st : Viewer3DState) :
    (restorePhase st).scene.map Entity.id = st.scene.map Entity.id := by
  unfold restorePhase
  split
  · rfl
  · exact (ids_restoreFold _ _).trans (ids_setSelectedAll _ _ _)

theorem ids_selectElements (modelId : String) (elementIds : List String)
    (st : Viewer3DState) :
    (selectElements modelId elementIds st).scene.map Entity.id
      = st.scene.map Entity.id := by
  unfold selectElements
  simp only []
  split
  · exact ids_restorePhase st
  · exact ((ids_batchFold _ _).trans ((ids_captureFold _ _).trans
      (ids_setSelectedAll _ _ _))).trans (ids_restorePhase st)

/-! Shape of the scene after the capture-and-highlight loop, the batch
recolor and the restore loop of selectElements. -/

theorem captureFold_scene (ks : List String) : ∀ p : Scene × Ledger,
    (ks.foldl captureStep p).1
      = p.1.map (fun e => if ks.contains e.id then
          { e with colorize := some blueColor } else e) := by
  induction ks with
  | nil =>
    intro p
    simp
  | cons k t ih =>
    intro p
    rw [List.foldl_cons, ih (captureStep p k)]
    simp only [captureStep]
    unfold updCol
    rw [List.map_map]
    apply List.map_congr_left
    intro e _
    by_cases hk : e.id = k
    · subst hk
      simp [Function.comp]
    · have hbeq : (e.id == k) = false := by simp [hk]
      simp only [Function.comp, hbeq, Bool.false_eq_true, if_false,
        List.contains_cons]
      by_cases ht : t.contains e.id
      · simp [ht]
      · simp [ht, hbeq]

theorem batchFold_scene (ks : List String) : ∀ sc : Scene,
    ks.foldl (fun sc k => updCol k (some blueColor) sc) sc
      = sc.map (fun e => if ks.contains e.id then
          { e with colorize := some blueColor } else e) := by
  induction ks with
  | nil =>
    intro sc
    simp
  | cons k t ih =>
    intro sc
    rw [List.foldl_cons, ih]
    unfold updCol
    rw [List.map_map]
    apply List.map_congr_left
    intro e _
    by_cases hk : e.id = k
    · subst hk
      simp [Function.comp]
    · have hbeq : (e.id == k) = false := by simp [hk]
      simp only [Function.comp, hbeq, Bool.false_eq_true, if_false,
        List.contains_cons]
      by_cases ht : t.contains e.id
      · simp [ht]
      · simp [ht, hbeq]

theorem restoreFold_scene (ks : List String) : ∀ p : Scene × Ledger,
    ∃ h : String → Option Color,
      (ks.foldl restoreStep p).1
        = p.1.map (fun e => if ks.contains e.id then
            { e with colorize := h e.id } else e) := by
  induction ks with
  | nil =>
    intro p
    exact ⟨fun _ => none, by simp⟩
  | cons k t ih =>
    intro p
    obtain ⟨h, hh⟩ := ih (restoreStep p k)
    cases hl : ledgerLookup p.2 k with
    | some v =>
      refine ⟨fun x => if t.contains x then h x else v, ?_⟩
      rw [List.foldl_cons, hh]
      simp only [restoreStep, hl]
      unfold updCol
      rw [List.map_map]
      apply List.map_congr_left
      intro e _
      by_cases hk : e.id = k
      · subst hk
        by_cases ht : e.id ∈ t
        · simp [Function.comp, ht]
        · simp [Function.comp, ht]
      · have hbeq : (e.id == k) = false := by simp [hk]
        simp only [Function.comp, hbeq, Bool.false_eq_true, if_false,
          List.contains_cons]
        by_cases ht : e.id ∈ t
        · simp [ht]
        · simp [ht, hbeq, hk]
    | none =>
      refine ⟨fun x => if t.contains x then h x else none, ?_⟩
      rw [List.foldl_cons, hh]
      simp only [restoreStep, hl]
      unfold updCol
      rw [List.map_map]
      apply List.map_congr_left
      intro e _
      by_cases hk : e.id = k
      · subst hk
        by_cases ht : e.id ∈ t
        · simp [Function.comp, ht]
        · simp [Function.comp, ht]
      · have hbeq : (e.id == k) = false := by simp [hk]
        simp only [Function.comp, hbeq, Bool.false_eq_true, if_false,
          List.contains_cons]
        by_cases ht : e.id ∈ t
        · simp [ht]
        · simp [ht, hbeq, hk]

theorem setSel_then_colIf (ks : List String) (b : Bool) (h : String → Option Color)
    (sc : Scene) :
    (setSelectedAll ks b sc).map
        (fun e => if ks.contains e.id then { e with colorize := h e.id } else e)
      = sc.map (fun e => if ks.contains e.id then
          { e with selected := b, colorize := h e.id } else e) := by
  unfold setSelectedAll
  rw [List.map_map]
  apply List.map_congr_left
  intro e _
  by_cases hc : e.id ∈ ks
  · simp [Function.comp, hc]
  · simp [Function.comp, hc]

/-! Ledger record-keeping: which keys hold records after the restore and
capture loops, and preservation of the JS-Map key-uniqueness invariant. -/

theorem ledgerLookup_isSome_iff (l : Ledger) (k : String) :
    (ledgerLookup l k).isSome = true ↔ k ∈ l.map Prod.fst := by
  unfold ledgerLookup
  have hmap : (Option.map (fun p : String × Option Color => p.2)
      (l.find? (fun p => p.1 == k))).isSome = (l.find? (fun p => p.1 == k)).isSome := by
    cases l.find? (fun p => p.1 == k) <;> rfl
  rw [hmap, List.find?_isSome]
  constructor
  · rintro ⟨p, hp, hbeq⟩
    exact List.mem_map.mpr ⟨p, hp, by simpa using hbeq⟩
  · intro hm
    obtain ⟨p, hp, hpk⟩ := List.mem_map.mp hm
    exact ⟨p, hp, by simp [hpk]⟩

theorem ledgerLookup_none_iff (l : Ledger) (k : String) :
    ledgerLookup l k = none ↔ k ∉ l.map Prod.fst := by
  rw [← ledgerLookup_isSome_iff]
  cases ledgerLookup l k <;> simp

theorem keysOf_erase (k : String) (l : Ledger) :
    keysOf (ledgerErase k l) = keysOf l \ {k} := by
  unfold keysOf ledgerErase
  ext x
  simp only [List.mem_toFinset, List.mem_map, List.mem_filter,
    Finset.mem_sdiff, Finset.mem_singleton, bne_iff_ne, ne_eq]
  constructor
  · rintro ⟨p, ⟨hp, hne⟩, rfl⟩
    exact ⟨⟨p, hp, rfl⟩, hne⟩
  · rintro ⟨⟨p, hp, rfl⟩, hne⟩
    exact ⟨p, ⟨hp, hne⟩, rfl⟩

theorem keysOf_captureStep (p : Scene × Ledger) (k : String) :
    keysOf (captureStep p k).2 = keysOf p.2 ∪ {k} := by
  simp only [captureStep]
  by_cases h : (ledgerLookup p.2 k).isSome = true
  · rw [if_pos h]
    have hk : k ∈ keysOf p.2 := by
      unfold keysOf
      exact List.mem_toFinset.mpr ((ledgerLookup_isSome_iff _ _).mp h)
    exact (Finset.union_eq_left.mpr (Finset.singleton_subset_iff.mpr hk)).symm
  · rw [if_neg h]
    cases hf : sceneFind p.1 k <;>
      · unfold keysOf
        rw [List.map_append, List.toFinset_append]
        rfl

theorem keysOf_restoreStep (p : Scene × Ledger) (k : String) :
    keysOf (restoreStep p k).2 = keysOf p.2 \ {k} := by
  cases hl : ledgerLookup p.2 k with
  | some v =>
    simp only [restoreStep, hl]
    exact keysOf_erase k p.2
  | none =>
    simp only [restoreStep, hl]
    have hk : k ∉ keysOf p.2 := by
      unfold keysOf
      intro hmem
      exact (ledgerLookup_none_iff _ _).mp hl (List.mem_toFinset.mp hmem)
    ext x
    simp only [Finset.mem_sdiff, Finset.mem_singleton]
    constructor
    · intro hx
      refine ⟨hx, ?_⟩
      rintro rfl
      exact hk hx
    · rintro ⟨hx, _⟩
      exact hx

theorem keysOf_captureFold (ks : List String) : ∀ p : Scene × Ledger,
    keysOf (ks.foldl captureStep p).2 = keysOf p.2 ∪ ks.toFinset := by
  induction ks with
  | nil =>
    intro p
    simp
  | cons k t ih =>
    intro p
    rw [List.foldl_cons, ih (captureStep p k), keysOf_captureStep,
      List.toFinset_cons, Finset.insert_eq, Finset.union_assoc]

theorem keysOf_restoreFold (ks : List String) : ∀ p : Scene × Ledger,
    keysOf (ks.foldl restoreStep p).2 = keysOf p.2 \ ks.toFinset := by
  induction ks with
  | nil =>
    intro p
    simp
  | cons k t ih =>
    intro p
    rw [List.foldl_cons, ih (restoreStep p k), keysOf_restoreStep,
      List.toFinset_cons, Finset.insert_eq]
    ext x
    simp only [Finset.mem_sdiff, Finset.mem_union, Finset.mem_singleton]
    tauto

theorem keysNodup_erase (k : String) (l : Ledger) (h : keysNodup l) :
    keysNodup (ledgerErase k l) := by
  unfold keysNodup ledgerErase at *
  exact List.Nodup.sublist (List.Sublist.map _ (List.filter_sublist _)) h

theorem keysNodup_restoreStep (p : Scene × Ledger) (k : String)
    (h : keysNodup p.2) : keysNodup (restoreStep p k).2 := by
  cases hl : ledgerLookup p.2 k with
  | some v =>
    simp only [restoreStep, hl]
    exact keysNodup_erase k p.2 h
  | none =>
    simp only [restoreStep, hl]
    exact h

theorem keysNodup_captureStep (p : Scene × Ledger) (k : String)
    (h : keysNodup p.2) : keysNodup (captureStep p k).2 := by
  simp only [captureStep]
  by_cases hs : (ledgerLookup p.2 k).isSome = true
  · rw [if_pos hs]
    exact h
  · rw [if_neg hs]
    have hk : k ∉ p.2.map Prod.fst := by
      intro hmem
      exact hs ((ledgerLookup_isSome_iff _ _).mpr hmem)
    cases hf : sceneFind p.1 k <;>
      · unfold keysNodup
        rw [List.map_append]
        simp only [List.map_cons, List.map_nil]
        rw [List.nodup_append]
        refine ⟨h, List.nodup_singleton _, ?_⟩
        intro a ha hb
        rw [List.mem_singleton] at hb
        subst hb
        exact hk ha

theorem keysNodup_restoreFold (ks : List String) : ∀ p : Scene × Ledger,
    keysNodup p.2 → keysNodup (ks.foldl restoreStep p).2 := by
  induction ks with
  | nil => exact fun p h => h
  | cons k t ih =>
    intro p h
    rw [List.foldl_cons]
    exact ih _ (keysNodup_restoreStep p k h)

theorem keysNodup_captureFold (ks : List String) : ∀ p : Scene × Ledger,
    keysNodup p.2 → keysNodup (ks.foldl captureStep p).2 := by
  induction ks with
  | nil => exact fun p h => h
  | cons k t ih =>
    intro p h
    rw [List.foldl_cons]
    exact ih _ (keysNodup_captureStep p k h)

theorem ledger_length_eq_card (l : Ledger) (h : keysNodup l) :
    l.length = (keysOf l).card := by
  unfold keysOf
  rw [List.toFinset_card_of_nodup h, List.length_map]

/-! Unfolding and characterization of restorePhase and selectElements. -/

theorem restorePhase_of_empty (st : Viewer3DState)
    (h : st.previouslySelected.isEmpty = true) : restorePhase st = st := by
  unfold restorePhase
  rw [if_pos h]

theorem restorePhase_of_ne (st : Viewer3DState)
    (h : st.previouslySelected.isEmpty = false) :
    restorePhase st
      = { scene := (st.previouslySelected.foldl restoreStep
            (setSelectedAll st.previouslySelected false st.scene,
              st.originalColors)).1,
          originalColors := (st.previouslySelected.foldl restoreStep
            (setSelectedAll st.previouslySelected false st.scene,
              st.originalColors)).2,
          previouslySelected := st.previouslySelected } := by
  unfold restorePhase
  rw [if_neg (by simp [h])]

theorem selectElements_of_isEmpty (modelId : String) (elementIds : List String)
    (st : Viewer3DState)
    (h : (resolveKeys (restorePhase st).scene modelId elementIds).isEmpty = true) :
    selectElements modelId elementIds st
      = { restorePhase st with previouslySelected := [] } := by
  unfold selectElements
  simp only []
  rw [if_pos h]

theorem selectElements_of_not_isEmpty (modelId : String) (elementIds : List String)
    (st : Viewer3DState)
    (h : (resolveKeys (restorePhase st).scene modelId elementIds).isEmpty = false) :
    selectElements modelId elementIds st
      = { scene := (resolveKeys (restorePhase st).scene modelId elementIds).foldl
            (fun sc k => updCol k (some blueColor) sc)
            (((resolveKeys (restorePhase st).scene modelId elementIds).foldl
              captureStep
              (setSelectedAll (resolveKeys (restorePhase st).scene modelId elementIds)
                true (restorePhase st).scene, (restorePhase st).originalColors)).1),
          originalColors := ((resolveKeys (restorePhase st).scene modelId
              elementIds).foldl captureStep
              (setSelectedAll (resolveKeys (restorePhase st).scene modelId elementIds)
                true (restorePhase st).scene, (restorePhase st).originalColors)).2,
          previouslySelected := resolveKeys (restorePhase st).scene modelId
            elementIds } := by
  unfold selectElements
  simp only []
  rw [if_neg (by simp [h])]

theorem selectScene_shape (ks : List String) (sc : Scene) (l : Ledger) :
    ks.foldl (fun sc k => updCol k (some blueColor) sc)
        ((ks.foldl captureStep (setSelectedAll ks true sc, l)).1)
      = sc.map (fun e => if ks.contains e.id then
          { e with selected := true, colorize := some blueColor } else e) := by
  rw [captureFold_scene ks (setSelectedAll ks true sc, l), batchFold_scene]
  unfold setSelectedAll
  rw [List.map_map, List.map_map]
  apply List.map_congr_left
  intro e _
  by_cases hc : e.id ∈ ks
  · simp [Function.comp, hc]
  · simp [Function.comp, hc]

theorem restoreScene_shape (ks : List String) (sc : Scene) (l : Ledger) :
    ∃ h : String → Option Color,
      (ks.foldl restoreStep (setSelectedAll ks false sc, l)).1
        = sc.map (fun e => if ks.contains e.id then
            { e with selected := false, colorize := h e.id } else e) := by
  obtain ⟨h, hh⟩ := restoreFold_scene ks (setSelectedAll ks false sc, l)
  exact ⟨h, hh.trans (setSel_then_colIf ks false h sc)⟩

theorem keysOf_restorePhase (st : Viewer3DState) :
    keysOf (restorePhase st).originalColors
      = keysOf st.originalColors \ st.previouslySelected.toFinset := by
  cases hne : st.previouslySelected.isEmpty
  · rw [restorePhase_of_ne st hne]
    exact keysOf_restoreFold _ _
  · rw [restorePhase_of_empty st hne]
    have : st.previouslySelected = [] := List.isEmpty_iff.mp hne
    rw [this]
    simp

theorem keysNodup_restorePhase (st : Viewer3DState)
    (h : keysNodup st.originalColors) :
    keysNodup (restorePhase st).originalColors := by
  cases hne : st.previouslySelected.isEmpty
  · rw [restorePhase_of_ne st hne]
    exact keysNodup_restoreFold _ _ h
  · rw [restorePhase_of_empty st hne]
    exact h

theorem keysOf_selectElements (modelId : String) (elementIds : List String)
    (st : Viewer3DState) :
    keysOf (selectElements modelId elementIds st).originalColors
      = (keysOf st.originalColors \ st.previouslySelected.toFinset)
          ∪ (resolveKeys (restorePhase st).scene modelId elementIds).toFinset := by
  cases hE : (resolveKeys (restorePhase st).scene modelId elementIds).isEmpty
  · rw [selectElements_of_not_isEmpty modelId elementIds st hE]
    show keysOf (List.foldl captureStep _ _).2 = _
    rw [keysOf_captureFold]
    rw [keysOf_restorePhase]
  · rw [selectElements_of_isEmpty modelId elementIds st hE]
    have hks : resolveKeys (restorePhase st).scene modelId elementIds = [] :=
      List.isEmpty_iff.mp hE
    show keysOf (restorePhase st).originalColors = _
    rw [hks, keysOf_restorePhase]
    simp

theorem keysNodup_selectElements (modelId : String) (elementIds : List String)
    (st : Viewer3DState) (h : keysNodup st.originalColors) :
    keysNodup (selectElements modelId elementIds st).originalColors := by
  cases hE : (resolveKeys (restorePhase st).scene modelId elementIds).isEmpty
  · rw [selectElements_of_not_isEmpty modelId elementIds st hE]
    exact keysNodup_captureFold _ _ (keysNodup_restorePhase st h)
  · rw [selectElements_of_isEmpty modelId elementIds st hE]
    exact keysNodup_restorePhase st h

theorem prev_selectElements (modelId : String) (elementIds : List String)
    (st : Viewer3DState) :
    (selectElements modelId elementIds st).previouslySelected
      = resolveKeys (restorePhase st).scene modelId elementIds := by
  cases hE : (resolveKeys (restorePhase st).scene modelId elementIds).isEmpty
  · rw [selectElements_of_not_isEmpty modelId elementIds st hE]
  · rw [selectElements_of_isEmpty modelId elementIds st hE]
    exact (List.isEmpty_iff.mp hE).symm

/-! The second run of selectElements with the same ids fixes the state
produced by the first run. -/

theorem second_call_fixes (modelId : String) (elementIds : List String)
    (stR st1 : Viewer3DState) (K : List String)
    (hKdef : K = resolveKeys stR.scene modelId elementIds)
    (hE : K.isEmpty = false)
    (hscene1 : st1.scene = stR.scene.map (fun e => if K.contains e.id then
      { e with selected := true, colorize := some blueColor } else e))
    (hprev1 : st1.previouslySelected = K)
    (hl1keys : keysOf st1.originalColors = keysOf stR.originalColors ∪ K.toFinset)
    (hl1nd : keysNodup st1.originalColors) :
    (selectElements modelId elementIds st1).scene = st1.scene ∧
    (selectElements modelId elementIds st1).previouslySelected
        = st1.previouslySelected ∧
    (selectElements modelId elementIds st1).originalColors.length
        = st1.originalColors.length := by
  have hids1 : (restorePhase st1).scene.map Entity.id = stR.scene.map Entity.id := by
    calc (restorePhase st1).scene.map Entity.id
        = st1.scene.map Entity.id := ids_restorePhase st1
      _ = stR.scene.map Entity.id := by
          rw [hscene1]
          exact map_id_of_pres _ _
            (fun e => by by_cases hc : e.id ∈ K <;> simp [hc])
  have hks2 : resolveKeys (restorePhase st1).scene modelId elementIds = K := by
    rw [hKdef]
    exact resolveKeys_factor _ _ _ _ hids1
  have hprev1ne : st1.previouslySelected.isEmpty = false := by
    rw [hprev1]
    exact hE
  have hE2 : (resolveKeys (restorePhase st1).scene modelId elementIds).isEmpty
      = false := by
    rw [hks2]
    exact hE
  have h2 := selectElements_of_not_isEmpty modelId elementIds st1 hE2
  refine ⟨?_, ?_, ?_⟩
  · have hsc2 : (selectElements modelId elementIds st1).scene
        = (restorePhase st1).scene.map (fun e =>
            if (resolveKeys (restorePhase st1).scene modelId
                elementIds).contains e.id then
              { e with selected := true, colorize := some blueColor } else e) := by
      rw [h2]
      exact selectScene_shape _ _ _
    have hψex : ∃ h : String → Option Color,
        (restorePhase st1).scene = st1.scene.map (fun e =>
          if K.contains e.id then
            { e with selected := false, colorize := h e.id } else e) := by
      rw [restorePhase_of_ne st1 hprev1ne]
      obtain ⟨h, hh⟩ :=
        restoreScene_shape st1.previouslySelected st1.scene st1.originalColors
      refine ⟨h, ?_⟩
      rw [← hprev1]
      exact hh
    obtain ⟨h, hψ⟩ := hψex
    rw [hsc2, hks2, hψ, List.map_map]
    have hpt : ∀ e1 ∈ st1.scene,
        ((fun e => if K.contains e.id then
            { e with selected := true, colorize := some blueColor } else e) ∘
          (fun e => if K.contains e.id then
            { e with selected := false, colorize := h e.id } else e)) e1
          = id e1 := by
      intro e1 he1
      rw [hscene1] at he1
      obtain ⟨e, he, rfl⟩ := List.mem_map.mp he1
      by_cases hc : e.id ∈ K
      · simp [Function.comp, hc]
      · simp [Function.comp, hc]
    rw [List.map_congr_left hpt, List.map_id]
  · rw [prev_selectElements, hks2, hprev1]
  · have hkeys2 : keysOf (selectElements modelId elementIds st1).originalColors
        = keysOf st1.originalColors := by
      rw [keysOf_selectElements modelId elementIds st1, hks2, hprev1, hl1keys]
      ext x
      simp only [Finset.mem_union, Finset.mem_sdiff]
      tauto
    rw [ledger_length_eq_card _
        (keysNodup_selectElements modelId elementIds st1 hl1nd),
      ledger_length_eq_card _ hl1nd, hkeys2]

/-- C5: applySelection is idempotent — for every list of ids, invoking
selectElements with the same ids twice in succession leaves the engine-visible
state (the per-object selected flags, colors and visibility in the scene,
together with the remembered selection) and the appearance-ledger size
identical to invoking it once. The hypothesis is the JS-Map invariant that the
ledger keys are unique. -/
theorem selection_idempotent (modelId : String) (elementIds : List String)
    (st : Viewer3DState) (hnd : keysNodup st.originalColors) :
    (selectElements modelId elementIds
        (selectElements modelId elementIds st)).scene
        = (selectElements modelId elementIds st).scene ∧
    (selectElements modelId elementIds
        (selectElements modelId elementIds st)).previouslySelected
        = (selectElements modelId elementIds st).previouslySelected ∧
    (selectElements modelId elementIds
        (selectElements modelId elementIds st)).originalColors.length
        = (selectElements modelId elementIds st).originalColors.length := by
  cases hE : (resolveKeys (restorePhase st).scene modelId elementIds).isEmpty with
  | true =>
    have h1 := selectElements_of_isEmpty modelId elementIds st hE
    have hprevE : (selectElements modelId elementIds st).previouslySelected
        = [] := by
      rw [h1]
    have hR2 := restorePhase_of_empty (selectElements modelId elementIds st)
      (by rw [hprevE]; rfl)
    have hkeq : resolveKeys (selectElements modelId elementIds st).scene modelId
        elementIds = resolveKeys (restorePhase st).scene modelId elementIds :=
      resolveKeys_factor _ _ _ _
        ((ids_selectElements modelId elementIds st).trans
          (ids_restorePhase st).symm)
    have hE2 : (resolveKeys
        (restorePhase (selectElements modelId elementIds st)).scene modelId
          elementIds).isEmpty = true := by
      rw [hR2, hkeq]
      exact hE
    have h2 := selectElements_of_isEmpty modelId elementIds
      (selectElements modelId elementIds st) hE2
    rw [h2, hR2]
    exact ⟨rfl, hprevE.symm, rfl⟩
  | false =>
    have h1 := selectElements_of_not_isEmpty modelId elementIds st hE
    apply second_call_fixes modelId elementIds (restorePhase st) _
      (resolveKeys (restorePhase st).scene modelId elementIds) rfl hE
    · rw [h1]
      exact selectScene_shape _ _ _
    · rw [h1]
    · rw [h1]
      exact keysOf_captureFold _ _
    · exact keysNodup_selectElements modelId elementIds st hnd

/-- Witness for C5 at a concrete state: one entity registered under the
composite key, an empty ledger with trivially unique keys, and a single
selected id. -/
theorem selection_idempotent_witness :
    keysNodup ([] : Ledger) ∧
    ((selectElements "model-f" ["E1"]
        (selectElements "model-f" ["E1"]
          ⟨[⟨"model-f#E1", true, false, none⟩], [], []⟩)).scene
        = (selectElements "model-f" ["E1"]
            ⟨[⟨"model-f#E1", true, false, none⟩], [], []⟩).scene ∧
      (selectElements "model-f" ["E1"]
        (selectElements "model-f" ["E1"]
          ⟨[⟨"model-f#E1", true, false, none⟩], [], []⟩)).previouslySelected
        = (selectElements "model-f" ["E1"]
            ⟨[⟨"model-f#E1", true, false, none⟩], [], []⟩).previouslySelected ∧
      (selectElements "model-f" ["E1"]
        (selectElements "model-f" ["E1"]
          ⟨[⟨"model-f#E1", true, false, none⟩], [], []⟩)).originalColors.length
        = (selectElements "model-f" ["E1"]
            ⟨[⟨"model-f#E1", true, false, none⟩], [], []⟩).originalColors.length) :=
  ⟨List.nodup_nil, selection_idempotent "model-f" ["E1"]
    ⟨[⟨"model-f#E1", true, false, none⟩], [], []⟩ List.nodup_nil⟩

/-- C4: the appearance ledger does not leak — starting from the freshly
mounted state (empty ledger, nothing previously selected), any sequence
select, select-different, deselect-all (selectElements with the empty list)
ends with zero ledger records: every record created on selection growth is
removed when the handle leaves the selection. -/
theorem ledger_no_leak (modelId : String) (sc : Scene) (ids1 ids2 : List String) :
    (selectElements modelId []
      (selectElements modelId ids2
        (selectElements modelId ids1 ⟨sc, [], []⟩))).originalColors = [] := by
  have hk1 : keysOf (selectElements modelId ids1 ⟨sc, [], []⟩).originalColors
      = (resolveKeys (restorePhase ⟨sc, [], []⟩).scene modelId ids1).toFinset := by
    rw [keysOf_selectElements]
    show (keysOf [] \ List.toFinset []) ∪ _ = _
    simp [keysOf]
  have hp1 := prev_selectElements modelId ids1 (⟨sc, [], []⟩ : Viewer3DState)
  have hk2 : keysOf (selectElements modelId ids2
        (selectElements modelId ids1 ⟨sc, [], []⟩)).originalColors
      = (resolveKeys (restorePhase (selectElements modelId ids1
          ⟨sc, [], []⟩)).scene modelId ids2).toFinset := by
    rw [keysOf_selectElements, hk1, hp1]
    ext x
    simp
  have hp2 := prev_selectElements modelId ids2
    (selectElements modelId ids1 ⟨sc, [], []⟩)
  have hk3 : keysOf (selectElements modelId []
        (selectElements modelId ids2
          (selectElements modelId ids1 ⟨sc, [], []⟩))).originalColors = ∅ := by
    rw [keysOf_selectElements, hk2, hp2]
    ext x
    simp [resolveKeys]
  have hmapfst : ((selectElements modelId []
      (selectElements modelId ids2
        (selectElements modelId ids1 ⟨sc, [], []⟩))).originalColors.map
          Prod.fst) = [] := by
    unfold keysOf at hk3
    exact (List.toFinset_eq_empty_iff _).mp hk3
  cases hcal : (selectElements modelId []
      (selectElements modelId ids2
        (selectElements modelId ids1 ⟨sc, [], []⟩))).originalColors with
  | nil => rfl
  | cons p t =>
    rw [hcal] at hmapfst
    simp at hmapfst

/-! The highlight color never enters the ledger. -/

theorem ledgerLookup_append_single (l : Ledger) (k : String) (v : Option Color)
    (h : ledgerLookup l k = none) :
    ledgerLookup (l ++ [(k, v)]) k = some v := by
  unfold ledgerLookup at h ⊢
  induction l with
  | nil => simp
  | cons q t ih =>
    rw [List.cons_append]
    cases hb : (q.1 == k) with
    | true =>
      exfalso
      rw [List.find?_cons_of_pos (p := fun r => r.1 == k) t hb] at h
      simp at h
    | false =>
      rw [List.find?_cons_of_neg (p := fun r => r.1 == k) t (by simp [hb])] at h
      rw [List.find?_cons_of_neg (p := fun r => r.1 == k) (t ++ [(k, v)])
        (by simp [hb])]
      exact ih h

theorem getEntityColor_not_blue (e : Entity) (c : Color)
    (h : getEntityColor e = some c) : isBlue c = false := by
  unfold getEntityColor at h
  cases hc : e.colorize with
  | none =>
    simp only [hc] at h
    exact absurd h (by simp)
  | some c' =>
    simp only [hc] at h
    by_cases hb : isBlue c' = true
    · rw [if_pos hb] at h
      simp at h
    · rw [if_neg hb] at h
      simp only [Option.some.injEq] at h
      rw [← h]
      simpa using hb

theorem captureVal_not_blue (e : Entity) (c : Color)
    (h : captureVal e = some c) : isBlue c = false := by
  unfold captureVal at h
  cases hg : getEntityColor e with
  | none =>
    simp only [hg] at h
    exact absurd h (by simp)
  | some c' =>
    simp only [hg] at h
    have hb := getEntityColor_not_blue e c' hg
    rw [if_neg (by simp [hb])] at h
    simp only [Option.some.injEq] at h
    rw [← h]
    exact hb

theorem noBlueStored_restoreStep (p : Scene × Ledger) (k : String)
    (h : noBlueStored p.2) : noBlueStored (restoreStep p k).2 := by
  cases hl : ledgerLookup p.2 k with
  | some v =>
    simp only [restoreStep, hl]
    intro q hq
    exact h q (List.mem_of_mem_filter hq)
  | none =>
    simp only [restoreStep, hl]
    exact h

theorem noBlueStored_captureStep (p : Scene × Ledger) (k : String)
    (h : noBlueStored p.2) : noBlueStored (captureStep p k).2 := by
  simp only [captureStep]
  by_cases hs : (ledgerLookup p.2 k).isSome = true
  · rw [if_pos hs]
    exact h
  · rw [if_neg hs]
    cases hf : sceneFind p.1 k with
    | some e =>
      intro q hq c hqc
      rcases List.mem_append.mp hq with hq | hq
      · exact h q hq c hqc
      · rw [List.mem_singleton] at hq
        subst hq
        exact captureVal_not_blue e c hqc
    | none =>
      intro q hq c hqc
      rcases List.mem_append.mp hq with hq | hq
      · exact h q hq c hqc
      · rw [List.mem_singleton] at hq
        subst hq
        simp at hqc

theorem noBlueStored_restoreFold (ks : List String) : ∀ p : Scene × Ledger,
    noBlueStored p.2 → noBlueStored (ks.foldl restoreStep p).2 := by
  induction ks with
  | nil => exact fun p h => h
  | cons k t ih =>
    intro p h
    rw [List.foldl_cons]
    exact ih _ (noBlueStored_restoreStep p k h)

theorem noBlueStored_captureFold (ks : List String) : ∀ p : Scene × Ledger,
    noBlueStored p.2 → noBlueStored (ks.foldl captureStep p).2 := by
  induction ks with
  | nil => exact fun p h => h
  | cons k t ih =>
    intro p h
    rw [List.foldl_cons]
    exact ih _ (noBlueStored_captureStep p k h)

theorem noBlueStored_restorePhase (st : Viewer3DState)
    (h : noBlueStored st.originalColors) :
    noBlueStored (restorePhase st).originalColors := by
  cases hne : st.previouslySelected.isEmpty
  · rw [restorePhase_of_ne st hne]
    exact noBlueStored_restoreFold _ _ h
  · rw [restorePhase_of_empty st hne]
    exact h

theorem noBlueStored_selectElements (modelId : String) (elementIds : List String)
    (st : Viewer3DState) (h : noBlueStored st.originalColors) :
    noBlueStored (selectElements modelId elementIds st).originalColors := by
  cases hE : (resolveKeys (restorePhase st).scene modelId elementIds).isEmpty
  · rw [selectElements_of_not_isEmpty modelId elementIds st hE]
    exact noBlueStored_captureFold _ _ (noBlueStored_restorePhase st h)
  · rw [selectElements_of_isEmpty modelId elementIds st hE]
    exact noBlueStored_restorePhase st h

/-- C2: the appearance ledger never records the highlight color as an
original. First, when capture is invoked for a handle whose currently probed
color equals the reserved highlight color [0.23, 0.51, 0.96] within the
floating-point tolerance, the value stored for that handle is the sentinel
none. Second, selectElements preserves the invariant that no stored original
equals the highlight color. -/
theorem highlight_sentinel_safety :
    (∀ (sc : Scene) (l : Ledger) (key : String) (e : Entity) (c : Color),
        sceneFind sc key = some e → e.colorize = some c → isBlue c = true →
        ledgerLookup l key = none →
        ledgerLookup (captureStep (sc, l) key).2 key = some none) ∧
    (∀ (modelId : String) (elementIds : List String) (st : Viewer3DState),
        noBlueStored st.originalColors →
        noBlueStored (selectElements modelId elementIds st).originalColors) := by
  constructor
  · intro sc l key e c hfind hcol hblue hnone
    have hval : captureVal e = none := by
      unfold captureVal getEntityColor
      rw [hcol]
      simp [hblue]
    simp only [captureStep]
    rw [if_neg (by simp [hnone])]
    rw [hfind]
    simp only [hval]
    exact ledgerLookup_append_single l key none hnone
  · intro modelId elementIds st h
    exact noBlueStored_selectElements modelId elementIds st h

/-- Witness for C2: capturing a handle whose probed color is exactly the
highlight color stores the sentinel none. -/
theorem highlight_sentinel_safety_witness :
    sceneFind [⟨"m#A", true, false, some blueColor⟩] "m#A"
        = some ⟨"m#A", true, false, some blueColor⟩ ∧
    (⟨"m#A", true, false, some blueColor⟩ : Entity).colorize = some blueColor ∧
    isBlue blueColor = true ∧
    ledgerLookup [] "m#A" = none ∧
    ledgerLookup
        (captureStep ([⟨"m#A", true, false, some blueColor⟩], []) "m#A").2 "m#A"
      = some none :=
  ⟨by decide, rfl, by decide, rfl,
    highlight_sentinel_safety.1 [⟨"m#A", true, false, some blueColor⟩] []
      "m#A" ⟨"m#A", true, false, some blueColor⟩ blueColor (by decide) rfl
      (by decide) rfl⟩

/-- C10: hideElements and showElements never read or modify the appearance
ledger — for every list of element ids the original-color map is identical
before and after the call; visibility changes and the re-assertion of the
highlight on shown selected objects happen without touching any record. -/
theorem visibility_ops_preserve_ledger (modelId : String)
    (elementIds : List String) (st : Viewer3DState) :
    (hideElements modelId elementIds st).originalColors = st.originalColors ∧
    (showElements modelId elementIds st).originalColors = st.originalColors := by
  constructor
  · unfold hideElements
    simp only []
    split <;> rfl
  · unfold showElements
    simp only []
    split <;> rfl

/-- C6: selection transition semantics of handleElementSelect — for every
current selection and every known element id (or any id when metadata is
absent), a non-additive select replaces the selection with exactly that id; an
additive select removes the id when already selected (keeping the other
members in order, via filter) and appends it when absent. -/
theorem select_transition_semantics (metadata : Option (List String))
    (st : PageState) (elementId : String)
    (hne : elementId ≠ "")
    (hknown : match metadata with
              | some elements => elementId ∈ elements
              | none => True) :
    ((handleElementSelect metadata elementId false st).1.selectedElementIds
        = [elementId]) ∧
    (st.selectedElementIds.contains elementId = true →
      (handleElementSelect metadata elementId true st).1.selectedElementIds
        = st.selectedElementIds.filter (fun id => id ≠ elementId)) ∧
    (st.selectedElementIds.contains elementId = false →
      (handleElementSelect metadata elementId true st).1.selectedElementIds
        = st.selectedElementIds ++ [elementId]) := by
  cases metadata with
  | none =>
    refine ⟨?_, ?_, ?_⟩
    · unfold handleElementSelect
      rw [if_neg hne]
      simp
    · intro hc
      have hcm : elementId ∈ st.selectedElementIds := by simpa using hc
      unfold handleElementSelect
      rw [if_neg hne]
      simp [hcm]
    · intro hc
      have hcm : elementId ∉ st.selectedElementIds := by simpa using hc
      unfold handleElementSelect
      rw [if_neg hne]
      simp [hcm]
  | some elements =>
    have hmem : elementId ∈ elements := hknown
    refine ⟨?_, ?_, ?_⟩
    · unfold handleElementSelect
      rw [if_neg hne]
      simp [hmem]
    · intro hc
      have hcm : elementId ∈ st.selectedElementIds := by simpa using hc
      unfold handleElementSelect
      rw [if_neg hne]
      simp [hmem, hcm]
    · intro hc
      have hcm : elementId ∉ st.selectedElementIds := by simpa using hc
      unfold handleElementSelect
      rw [if_neg hne]
      simp [hmem, hcm]

/-- Witness for C6: with loaded metadata containing A and B and current
selection [A], a non-additive select of B replaces the selection with [B]. -/
theorem select_transition_semantics_witness :
    ("B" : String) ≠ "" ∧ ("B" : String) ∈ ["A", "B"] ∧
    (handleElementSelect (some ["A", "B"]) "B" false
        ⟨some "A", ["A"], [], none, false, DisplayMode.shaded⟩).1.selectedElementIds
      = ["B"] :=
  ⟨by decide, by decide,
    (select_transition_semantics (some ["A", "B"])
      ⟨some "A", ["A"], [], none, false, DisplayMode.shaded⟩ "B"
      (by decide) (by decide)).1⟩

/-- C9: when metadata is loaded with an elements map, selecting a non-empty
element id that is absent from the map leaves the whole page state unchanged
(selection, primary id, hidden ids, isolation, x-ray flag, display mode) and
issues no engine call; when metadata is null the guard is skipped and an
unknown id enters the selection. -/
theorem unknown_id_guard (elements : List String) (st : PageState)
    (elementId : String) (ctrl : Bool)
    (hne : elementId ≠ "")
    (habs : elements.contains elementId = false) :
    handleElementSelect (some elements) elementId ctrl st = (st, []) ∧
    (∀ (st' : PageState) (id' : String), id' ≠ "" →
      (handleElementSelect none id' false st').1.selectedElementIds = [id']) := by
  constructor
  · unfold handleElementSelect
    rw [if_neg hne]
    rw [if_pos (by simpa using habs)]
  · intro st' id' hne'
    unfold handleElementSelect
    rw [if_neg hne']
    simp

/-- Witness for C9: selecting the unknown id X with metadata loaded leaves
the page state untouched and issues no engine call. -/
theorem unknown_id_guard_witness :
    ("X" : String) ≠ "" ∧ (["A"] : List String).contains "X" = false ∧
    handleElementSelect (some ["A"]) "X" false
        ⟨none, [], [], none, false, DisplayMode.shaded⟩
      = (⟨none, [], [], none, false, DisplayMode.shaded⟩, []) :=
  ⟨by decide, by decide,
    (unknown_id_guard ["A"] ⟨none, [], [], none, false, DisplayMode.shaded⟩
      "X" false (by decide) (by decide)).1⟩

/-! The readiness polling loop: unfolding equations and the bounded-attempts
specification. -/

theorem checkReadyFuel_zero (ready : Nat → Bool) (attempts : Nat) :
    checkReadyFuel ready attempts 0 = ([], Except.error timeoutErrorMsg) := rfl

theorem checkReadyFuel_succ (ready : Nat → Bool) (attempts n : Nat) :
    checkReadyFuel ready attempts (n + 1)
      = if ready (attempts + 1) then
          ([pollIntervalMs * attempts], Except.ok (attempts + 1))
        else if maxAttempts ≤ attempts + 1 then
          ([pollIntervalMs * attempts], Except.error timeoutErrorMsg)
        else
          (pollIntervalMs * attempts :: (checkReadyFuel ready (attempts + 1) n).1,
            (checkReadyFuel ready (attempts + 1) n).2) := rfl

theorem checkReadyFuel_spec (ready : Nat → Bool) : ∀ (fuel attempts : Nat),
    attempts + fuel = maxAttempts →
    ((checkReadyFuel ready attempts fuel).1.length ≤ fuel ∧
     (checkReadyFuel ready attempts fuel).1
       = (List.range (checkReadyFuel ready attempts fuel).1.length).map
           (fun i => pollIntervalMs * (attempts + i)) ∧
     ((∀ k, attempts < k → k ≤ maxAttempts → ready k = false) →
       (checkReadyFuel ready attempts fuel).2 = Except.error timeoutErrorMsg ∧
       (checkReadyFuel ready attempts fuel).1.length = fuel)) := by
  intro fuel
  induction fuel with
  | zero =>
    intro attempts h
    rw [checkReadyFuel_zero]
    exact ⟨by simp, by simp, fun _ => ⟨rfl, rfl⟩⟩
  | succ n ih =>
    intro attempts h
    rw [checkReadyFuel_succ]
    by_cases hr : ready (attempts + 1) = true
    · rw [if_pos hr]
      refine ⟨by simp, by simp [List.range_succ], ?_⟩
      intro hall
      exfalso
      have hfalse : ready (attempts + 1) = false :=
        hall (attempts + 1) (Nat.lt_succ_self attempts) (by omega)
      rw [hr] at hfalse
      simp at hfalse
    · rw [if_neg hr]
      by_cases hm : maxAttempts ≤ attempts + 1
      · rw [if_pos hm]
        have hn : n = 0 := by omega
        refine ⟨by simp, by simp [List.range_succ], ?_⟩
        intro hall
        exact ⟨rfl, by simp [hn]⟩
      · rw [if_neg hm]
        have h' : (attempts + 1) + n = maxAttempts := by omega
        obtain ⟨ihlen, ihtrace, ihfail⟩ := ih (attempts + 1) h'
        refine ⟨?_, ?_, ?_⟩
        · simpa using Nat.succ_le_succ ihlen
        · show pollIntervalMs * attempts :: (checkReadyFuel ready (attempts + 1) n).1
            = (List.range ((pollIntervalMs * attempts ::
                (checkReadyFuel ready (attempts + 1) n).1).length)).map
              (fun i => pollIntervalMs * (attempts + i))
          rw [List.length_cons, List.range_succ_eq_map, List.map_cons,
            List.map_map]
          congr 1
          conv_lhs => rw [ihtrace]
          apply List.map_congr_left
          intro i _
          simp only [Function.comp_apply]
          congr 1
          omega
        · intro hall
          have hall' : ∀ k, attempts + 1 < k → k ≤ maxAttempts → ready k = false :=
            fun k hk1 hk2 => hall k (by omega) hk2
          obtain ⟨hfe, hfl⟩ := ihfail hall'
          exact ⟨hfe, by simp [hfl]⟩

/-- C7: scene-readiness bring-up is bounded — the polling loop probes
readiness at the fixed 100 ms interval (the n-th probe fires at time
100 * n ms), makes at most 50 probes, and when readiness never holds within
the bound the loop settles with the descriptive timeout rejection, which the
initViewer catch turns into the failed terminal state after exactly 50
probes. -/
theorem scene_poll_bounded (ready : Nat → Bool) :
    (waitForViewerReady ready).1.length ≤ maxAttempts ∧
    (waitForViewerReady ready).1
      = (List.range (waitForViewerReady ready).1.length).map
          (fun i => pollIntervalMs * i) ∧
    ((∀ k, 1 ≤ k → k ≤ maxAttempts → ready k = false) →
      initViewer ready = ViewerPhase.failed timeoutErrorMsg ∧
      (waitForViewerReady ready).1.length = maxAttempts) := by
  obtain ⟨hlen, htrace, hfail⟩ :=
    checkReadyFuel_spec ready maxAttempts 0 (Nat.zero_add maxAttempts)
  refine ⟨hlen, ?_, ?_⟩
  · show (checkReadyFuel ready 0 maxAttempts).1 = _
    conv_lhs => rw [htrace]
    apply List.map_congr_left
    intro i _
    rw [Nat.zero_add]
  · intro hall
    obtain ⟨hfe, hfl⟩ := hfail (fun k hk1 hk2 => hall k hk1 hk2)
    constructor
    · unfold initViewer waitForViewerReady
      rw [hfe]
    · exact hfl

/-- Witness for C7: a scene that never becomes ready drives the viewer into
the failed terminal state with the timeout message. -/
theorem scene_poll_bounded_witness :
    (∀ k, 1 ≤ k → k ≤ maxAttempts → (fun _ => false) k = false) ∧
    initViewer (fun _ => false) = ViewerPhase.failed timeoutErrorMsg :=
  ⟨fun _ _ _ => rfl,
    ((scene_poll_bounded (fun _ => false)).2.2 (fun _ _ _ => rfl)).1⟩

/-! Isolation resolves only the exact composite key. -/

theorem sceneFind_id (sc : Scene) (key : String) (e : Entity)
    (h : sceneFind sc key = some e) : e.id = key := by
  unfold sceneFind at h
  have hp := List.find?_some h
  simpa using hp

theorem composite_key_has_hash (modelId elementId : String) :
    '#' ∈ (modelId ++ "#" ++ elementId).data := by
  rw [String.data_append, String.data_append]
  apply List.mem_append.mpr
  left
  apply List.mem_append.mpr
  right
  simp [String.data]

/-- C8: isolateElements with a non-null list resolves each id only through
the exact composite key, applying neither the bare-key nor the suffix
fallback — an id whose live object is registered under a bare key is not
added to the shown set and is invisible after the isolate pass, while the
same id resolves through the shared fallback chain (used by selectElements,
hideElements and showElements), and showElements does make it visible. -/
theorem isolate_composite_only (st : Viewer3DState) (modelId elementId : String)
    (ids : List String) (e : Entity)
    (hc : sceneFind st.scene (modelId ++ "#" ++ elementId) = none)
    (hb : sceneFind st.scene elementId = some e)
    (hh : '#' ∉ elementId.data)
    (_hmem : elementId ∈ ids) :
    (sceneFind (isolateElements modelId (some ids) st).scene elementId).map
        Entity.visible = some false ∧
    resolveElem st.scene modelId elementId = some e ∧
    (sceneFind (showElements modelId [elementId] st).scene elementId).map
        Entity.visible = some true := by
  have hid : e.id = elementId := sceneFind_id _ _ _ hb
  have hres : resolveElem st.scene modelId elementId = some e := by
    unfold resolveElem
    rw [hc, hb]
  refine ⟨?_, hres, ?_⟩
  · unfold isolateElements
    simp only []
    rw [sceneFind_map st.scene _ elementId (fun x => by split <;> rfl), hb]
    have hnotiso : ¬ ∃ a ∈ ids, ∃ e' : Entity,
        sceneFind st.scene (modelId ++ "#" ++ a) = some e' ∧ e'.id = e.id := by
      rintro ⟨i, _, e', hfind, heid⟩
      have hcomp : e'.id = modelId ++ "#" ++ i := sceneFind_id _ _ _ hfind
      apply hh
      have helem : elementId = modelId ++ "#" ++ i := by
        rw [← hid, ← heid, hcomp]
      rw [helem]
      exact composite_key_has_hash modelId i
    simp [hnotiso]
  · have hks : resolveKeys st.scene modelId [elementId] = [e.id] := by
      unfold resolveKeys resolveKey
      simp [hres]
    unfold showElements
    simp only []
    rw [hks]
    rw [if_neg (by simp)]
    rw [sceneFind_map st.scene _ elementId (fun x => by split <;> rfl), hb]
    have hcont : ([e.id] : List String).contains e.id = true := by simp
    simp [hcont]

/-- Witness for C8: an object registered under the bare key E1 is isolated
away (invisible) even though E1 is in the isolated list, while showElements
on the same id makes it visible. -/
theorem isolate_composite_only_witness :
    sceneFind [⟨"E1", true, false, none⟩] ("m1" ++ "#" ++ "E1") = none ∧
    sceneFind [⟨"E1", true, false, none⟩] "E1" = some ⟨"E1", true, false, none⟩ ∧
    '#' ∉ ("E1" : String).data ∧
    ("E1" : String) ∈ ["E1"] ∧
    ((sceneFind (isolateElements "m1" (some ["E1"])
          ⟨[⟨"E1", true, false, none⟩], [], []⟩).scene "E1").map
        Entity.visible = some false ∧
      resolveElem [⟨"E1", true, false, none⟩] "m1" "E1"
        = some ⟨"E1", true, false, none⟩ ∧
      (sceneFind (showElements "m1" ["E1"]
          ⟨[⟨"E1", true, false, none⟩], [], []⟩).scene "E1").map
        Entity.visible = some true) :=
  ⟨by decide, by decide, by decide, by decide,
    isolate_composite_only ⟨[⟨"E1", true, false, none⟩], [], []⟩ "m1" "E1"
      ["E1"] ⟨"E1", true, false, none⟩ (by decide) (by decide) (by decide)
      (by decide)⟩

/-- C3 (amended): entity resolution proceeds through the ordered fallback
chain — exact composite key first, then exact bare key, then suffix match —
but each scheme yields at most ONE handle (the first matching registry key),
so the result is a singleton or empty, never all matches of a scheme; when no
scheme matches, the result is empty and a batch resolution simply continues
with the other ids. -/
theorem resolution_first_match_chain (sc : Scene) (modelId elementId : String) :
    (resolveList sc modelId elementId).length ≤ 1 ∧
    (∀ e : Entity, sceneFind sc (modelId ++ "#" ++ elementId) = some e →
      resolveElem sc modelId elementId = some e) ∧
    (sceneFind sc (modelId ++ "#" ++ elementId) = none →
      ∀ e : Entity, sceneFind sc elementId = some e →
        resolveElem sc modelId elementId = some e) ∧
    (sceneFind sc (modelId ++ "#" ++ elementId) = none →
      sceneFind sc elementId = none →
      resolveElem sc modelId elementId
        = sc.find? (fun e => keyEndsWith e.id ("#" ++ elementId)
            || e.id == elementId)) ∧
    (resolveElem sc modelId elementId = none ↔
      ∀ e ∈ sc, e.id ≠ modelId ++ "#" ++ elementId ∧ e.id ≠ elementId ∧
        keyEndsWith e.id ("#" ++ elementId) = false) ∧
    (∀ ids1 ids2 : List String,
      resolveKeys sc modelId (ids1 ++ ids2)
        = resolveKeys sc modelId ids1 ++ resolveKeys sc modelId ids2) := by
  refine ⟨?_, ?_, ?_, ?_, ?_, ?_⟩
  · unfold resolveList
    cases resolveElem sc modelId elementId <;> simp
  · intro e h
    unfold resolveElem
    rw [h]
  · intro h1 e h2
    unfold resolveElem
    rw [h1, h2]
  · intro h1 h2
    unfold resolveElem
    rw [h1, h2]
  · constructor
    · intro h e he
      cases hA : sceneFind sc (modelId ++ "#" ++ elementId) with
      | some e' =>
        unfold resolveElem at h
        rw [hA] at h
        simp at h
      | none =>
        cases hB : sceneFind sc elementId with
        | some e' =>
          unfold resolveElem at h
          rw [hA, hB] at h
          simp at h
        | none =>
          unfold resolveElem at h
          rw [hA, hB] at h
          have hA' := List.find?_eq_none.mp hA e he
          have hB' := List.find?_eq_none.mp hB e he
          have hS' := List.find?_eq_none.mp h e he
          refine ⟨by simpa using hA', by simpa using hB', ?_⟩
          simp only [Bool.or_eq_true, not_or] at hS'
          simpa using hS'.1
    · intro h
      have hA : sceneFind sc (modelId ++ "#" ++ elementId) = none :=
        List.find?_eq_none.mpr (fun e he => by simp [(h e he).1])
      have hB : sceneFind sc elementId = none :=
        List.find?_eq_none.mpr (fun e he => by simp [(h e he).2.1])
      have hS : sc.find? (fun e => keyEndsWith e.id ("#" ++ elementId)
          || e.id == elementId) = none :=
        List.find?_eq_none.mpr (fun e he => by
          simp [(h e he).2.2, (h e he).2.1])
      unfold resolveElem
      rw [hA, hB, hS]
  · intro ids1 ids2
    unfold resolveKeys
    exact List.filterMap_append ids1 ids2 _

/-- C3 counterexample: with live keys m2#E1 and m3#E1, resolving element E1
under model m1 reaches the suffix scheme, which matches both keys, yet the
result is not the list of all suffix matches — the find call returns only the
first one. -/
theorem resolution_not_all_matches :
    resolveList [⟨"m2#E1", true, false, none⟩, ⟨"m3#E1", true, false, none⟩]
        "m1" "E1"
      ≠ ([⟨"m2#E1", true, false, none⟩, ⟨"m3#E1", true, false, none⟩] :
          Scene).filter (fun e => keyEndsWith e.id ("#" ++ "E1")) := by decide

/-- Witness for C3 (amended), the three fallback examples of the
specification: a composite-key hit, a bare-key hit and a suffix-match hit
each return exactly one handle. -/
theorem resolution_first_match_chain_witness :
    resolveElem [⟨"m1#E1", true, false, none⟩] "m1" "E1"
        = some ⟨"m1#E1", true, false, none⟩ ∧
    resolveElem [⟨"E1", true, false, none⟩] "m1" "E1"
        = some ⟨"E1", true, false, none⟩ ∧
    resolveElem [⟨"m2#E1", true, false, none⟩] "m1" "E1"
        = some ⟨"m2#E1", true, false, none⟩ :=
  ⟨(resolution_first_match_chain [⟨"m1#E1", true, false, none⟩] "m1" "E1").2.1
      ⟨"m1#E1", true, false, none⟩ (by decide),
   (resolution_first_match_chain [⟨"E1", true, false, none⟩] "m1" "E1").2.2.1
      (by decide) ⟨"E1", true, false, none⟩ (by decide),
   ((resolution_first_match_chain [⟨"m2#E1", true, false, none⟩] "m1"
      "E1").2.2.2.1 (by decide) (by decide)).trans (by decide)⟩

/-- C1 (code evidence): in the scenario hiddenIds = [A] then
isolatedIds = [B, C], the isolation pass does make exactly B and C visible —
but after isolatedIds is set back to null, the isolation effect (which runs
after the visibility effect) shows every object, so A is visible again
instead of staying hidden as the claim requires. -/
theorem isolation_clear_divergence :
    visibleIds c1AfterHide.scene = ["m#B", "m#C", "m#D"] ∧
    visibleIds c1AfterIsolate.scene = ["m#B", "m#C"] ∧
    visibleIds c1AfterClear.scene = ["m#A", "m#B", "m#C", "m#D"] := by decide
